import Mathlib

/-!
Shallow embedding of the batch inscription transaction construction engine of
`src/subcommand/wallet/inscribe/batch.rs` (fractalOrd).

Bitcoin machine integers (`u64` satoshi amounts, `u32` vout indices) are
represented by `Nat`; the source arithmetic only adds, multiplies and
checked-subtracts, so no wrap-around can occur and the `Nat` embedding is
exact.  Script public keys, transaction ids and inscription ids are opaque to
the construction logic (only compared for equality), so they are represented
by `Nat` tokens.  Cryptographic material (Taproot spend info, control block,
Schnorr signing) never influences the input/output lists, amounts or fees; it
is abstracted into an environment `Env` of opaque measurement functions
(`vsize`, `weight`, `txid`) and the derived commit address script.  Rust
panics (`unwrap`, `expect`, `assert!`, `Amount` underflow) are modelled as
`Except` errors carrying a dedicated constructor, and `Option` results where
the source returns a bare value after a possible panic.
-/

/-- A transaction outpoint: `(txid, vout)`.  Mirrors `bitcoin::OutPoint`. -/
structure OutPoint where
  txid : Nat
  vout : Nat
  deriving DecidableEq, Repr

/-- The null outpoint `OutPoint::null()` used as the commit-input placeholder
    before the real commit outpoint is known. -/
def OutPoint.null : OutPoint := { txid := 0, vout := 4294967295 }

/-- A specific satoshi: outpoint plus offset within the output's value. -/
structure SatPoint where
  outpoint : OutPoint
  offset : Nat
  deriving DecidableEq, Repr

/-- A transaction output: value in satoshis and an opaque script public key. -/
structure TxOut where
  value : Nat
  script_pubkey : Nat
  deriving DecidableEq, Repr

/-- A transaction input; only the previous output matters to the construction
    logic (script_sig is always empty, the sequence constant, witnesses are
    attached after construction). -/
structure TxIn where
  previous_output : OutPoint
  deriving DecidableEq, Repr

/-- A transaction record as the construction engine sees it. -/
structure Transaction where
  version : Int
  input : List TxIn
  output : List TxOut
  deriving DecidableEq, Repr

/-- Output-allocation mode (`Mode` in batch.rs). -/
inductive Mode where
  | SameSat
  | SeparateOutputs
  | SharedOutput
  deriving DecidableEq, Repr

/-- An inscription as far as the construction logic inspects it: its optional
    parent reference.  The content bytes only feed the abstracted reveal
    script. -/
structure Inscription where
  parent : Option Nat
  deriving DecidableEq, Repr

/-- Parent inscription information (`ParentInfo`). -/
structure ParentInfo where
  destination : Nat
  id : Nat
  location : SatPoint
  tx_out : TxOut
  deriving DecidableEq, Repr

/-- The batch configuration aggregate (`Batch`), restricted to the fields the
    transaction-construction path reads.  Broadcast/backup-only flags (`dump`,
    `dry_run`, `no_backup`, `no_broadcast`, `key`) never reach
    `create_batch_inscription_transactions` and are omitted. -/
structure Batch where
  commit_fee_rate : Nat
  commit_only : Bool
  commitment : Option OutPoint
  commitment_output : Option TxOut
  destinations : List Nat
  inscriptions : List Inscription
  mode : Mode
  next_inscription : Option Inscription
  no_limit : Bool
  parent_info : Option ParentInfo
  postage : Nat
  reinscribe : Bool
  reveal_fee : Option Nat
  reveal_fee_rate : Nat
  reveal_input : List OutPoint
  satpoint : Option SatPoint
  deriving Repr

/-- Failure modes of the construction pipeline.  Constructors tagged `Panic`
    model Rust panics (`unwrap`, `expect`, `assert`, `Amount` underflow); the
    rest model `Err(anyhow!(...))` / `bail!` returns, carrying the data that
    the source interpolates into the message. -/
inductive Err where
  | parentMismatchPanic
  | nextWithoutCommitment
  | badDestinationCount (expected got : Nat)
  | noCardinalUtxos
  | alreadyInscribed (satpoint : SatPoint)
  | utxoAlreadyInscribed (outpoint : OutPoint) (inscription_id : Nat) (satpoint : SatPoint)
  | notReinscription
  | revealFeeTooSmall (minimum : Nat)
  | fundingFailed
  | unwrapPanic
  | amountUnderflowPanic
  | noCommitOutputPanic
  | dust
  | weightExceeded (weight : Nat)
  deriving DecidableEq, Repr

/-- Environment of external collaborators and abstracted cryptographic
    derivations:
    * `vsize ci tx` — virtual size of `tx` after the fee-estimation pass has
      filled every input with a maximum-size dummy witness (the input at index
      `ci` additionally holds the reveal script and control block);
    * `weight tx` — weight of the (signed) transaction;
    * `txid tx` — transaction id;
    * `commit_address_script` — script of the P2TR commit address derived from
      the reveal script and internal key;
    * `reveal_change_script` — script of the reveal change address (first
      change address, or the next-commitment address when `next_inscription`
      is set);
    * `dust_value s` — dust threshold of script `s`;
    * `lookup_output o` — `index.get_transaction(o.txid).unwrap().output[o.vout]`;
    * `build_commit commit_only target` — the external `TransactionBuilder`
      coin-selection collaborator, invoked with target `reveal_fee +
      total_postage` (as a `NoChange` target when `commit_only`). -/
structure Env where
  vsize : Nat → Transaction → Nat
  weight : Transaction → Nat
  txid : Transaction → Nat
  commit_address_script : Nat
  reveal_change_script : Nat
  dust_value : Nat → Nat
  lookup_output : OutPoint → TxOut
  build_commit : Bool → Nat → Except Err Transaction

/-- Fee for a given virtual size.  Modelled from the spec: the `FeeRate` type
    itself is outside the excerpted sources; the spec describes a fee rate
    that converts a transaction's virtual size into a minimum fee, so a rate
    is embedded as satoshis per virtual byte and the fee is `rate × vsize`. -/
def FeeRate.fee (rate vsize : Nat) : Nat := rate * vsize

/-- First-match lookup in the outpoint→value map (`BTreeMap` lookup; new
    insertions are prepended, so first match realizes overwrite semantics). -/
def lookupUtxo (utxos : List (OutPoint × Nat)) (op : OutPoint) : Option Nat :=
  match utxos with
  | [] => none
  | (o, v) :: rest => if o = op then some v else lookupUtxo rest op

/-- Sum of the mapped values of a list of inputs; `none` when some previous
    outpoint is absent from the map (the source's `.unwrap()` panic). -/
def inputSum (utxos : List (OutPoint × Nat)) : List TxIn → Option Nat
  | [] => some 0
  | i :: rest =>
    match lookupUtxo utxos i.previous_output with
    | none => none
    | some v =>
      match inputSum utxos rest with
      | none => none
      | some s => some (v + s)

/-- Sum of a transaction's output values. -/
def outputSum (tx : Transaction) : Nat := (tx.output.map TxOut.value).sum

/-- The fee calculator `Batch::calculate_fee`: sum of the UTXO values referenced by the inputs
    minus the sum of the output values.  `none` models the two panics: a
    missing outpoint (`.unwrap()` on the map lookup) and `checked_sub(...)
    .unwrap()` when outputs exceed inputs. -/
def calculate_fee (tx : Transaction) (utxos : List (OutPoint × Nat)) : Option Nat :=
  match inputSum utxos tx.input with
  | none => none
  | some s => if outputSum tx ≤ s then some (s - outputSum tx) else none

/-- Total fee reported by `create_batch_inscription_transactions` (lines
    623-632): commit fee, taken as 0 when a pre-existing commitment is
    reused, plus reveal fee, taken as 0 in commit-only mode. -/
def totalFees (commitment_reused commit_only : Bool) (commit_tx reveal_tx : Transaction)
    (utxos : List (OutPoint × Nat)) : Option Nat :=
  match (if commitment_reused then some 0 else calculate_fee commit_tx utxos),
        (if commit_only then some 0 else calculate_fee reveal_tx utxos) with
  | some cf, some rf => some (cf + rf)
  | _, _ => none

/-- Destination-count invariants (the three `assert_eq!` arms at the top of
    `create_batch_inscription_transactions`); an `assert_eq!` failure is a
    panic, modelled as an error carrying expected and actual counts. -/
def checkDestinations (mode : Mode) (ndest ninsc : Nat) : Except Err Unit :=
  match mode with
  | Mode.SameSat =>
    if ndest = 1 then pure () else Except.error (Err.badDestinationCount 1 ndest)
  | Mode.SeparateOutputs =>
    if ndest = ninsc then pure () else Except.error (Err.badDestinationCount ninsc ndest)
  | Mode.SharedOutput =>
    if ndest = 1 then pure () else Except.error (Err.badDestinationCount 1 ndest)

/-- Satpoint selection (lines 299-322): the null satpoint when reusing a
    commitment, the caller's satpoint when given, otherwise the first cardinal
    UTXO (positive value, not inscribed, not locked, not runic). -/
def selectSatpoint (batch : Batch) (wallet_inscriptions : List (SatPoint × Nat))
    (locked_utxos runic_utxos : List OutPoint)
    (utxos : List (OutPoint × Nat)) : Except Err SatPoint :=
  if batch.commitment.isSome then
    pure { outpoint := { txid := 0, vout := 0 }, offset := 0 }
  else
    match batch.satpoint with
    | some sp => pure sp
    | none =>
      let inscribed := wallet_inscriptions.map (fun p => p.1.outpoint)
      match utxos.find? (fun p =>
          decide (0 < p.2) && !(inscribed.contains p.1) &&
          !(locked_utxos.contains p.1) && !(runic_utxos.contains p.1)) with
      | some p => pure { outpoint := p.1, offset := 0 }
      | none => Except.error Err.noCardinalUtxos

/-- The loop over `wallet_inscriptions` (lines 324-342), returning whether the
    chosen satpoint is an existing inscription location. -/
def reinscriptionLoop (reinscribe : Bool) (satpoint : SatPoint) :
    List (SatPoint × Nat) → Bool → Except Err Bool
  | [], acc => pure acc
  | (sp, id) :: rest, acc =>
    if sp = satpoint then
      if reinscribe then reinscriptionLoop reinscribe satpoint rest true
      else Except.error (Err.alreadyInscribed satpoint)
    else if sp.outpoint = satpoint.outpoint then
      Except.error (Err.utxoAlreadyInscribed satpoint.outpoint id sp)
    else reinscriptionLoop reinscribe satpoint rest acc

/-- Reinscription policy (lines 324-348): the loop above followed by the
    check that `reinscribe` is only set when it is in fact a reinscription. -/
def checkReinscription (reinscribe : Bool) (satpoint : SatPoint)
    (wallet_inscriptions : List (SatPoint × Nat)) : Except Err Unit := do
  let reinscription ← reinscriptionLoop reinscribe satpoint wallet_inscriptions false
  if reinscribe && !reinscription then Except.error Err.notReinscription else pure ()

/-- The `total_postage` computation (lines 401-406): the postage itself in
    same-sat mode,
    `postage × inscription_count` otherwise. -/
def totalPostage (mode : Mode) (postage n : Nat) : Nat :=
  match mode with
  | Mode.SameSat => postage
  | Mode.SharedOutput | Mode.SeparateOutputs => postage * n

/-- The destination outputs (lines 410-420): one `TxOut` per destination,
    valued `postage` in separate-outputs mode and `total_postage` in the
    shared-output and same-sat modes.  `n` is the inscription count. -/
def destinationOutputs (mode : Mode) (postage : Nat) (destinations : List Nat)
    (n : Nat) : List TxOut :=
  destinations.map (fun d =>
    { value := match mode with
        | Mode.SeparateOutputs => postage
        | Mode.SharedOutput | Mode.SameSat => totalPostage mode postage n,
      script_pubkey := d })

/-- Parent pass-through output insertion (lines 422-437): when a parent is
    present its output (parent's original value, parent destination script)
    becomes output 0. -/
def insertParentOutput (parent_info : Option ParentInfo) (outs : List TxOut) : List TxOut :=
  match parent_info with
  | some p => { value := p.tx_out.value, script_pubkey := p.destination } :: outs
  | none => outs

/-- Parent input insertion (line 429). -/
def insertParentInput (parent_info : Option ParentInfo) (ins : List OutPoint) : List OutPoint :=
  match parent_info with
  | some p => p.location.outpoint :: ins
  | none => ins

/-- The zero-valued trailing change output appended when a pre-existing
    commitment is reused (lines 441-446). -/
def appendCommitmentChange (commitment_reused : Bool) (change_script : Nat)
    (outs : List TxOut) : List TxOut :=
  if commitment_reused then outs ++ [{ value := 0, script_pubkey := change_script }]
  else outs

/-- The assembler `Batch::build_reveal_transaction`: builds the reveal transaction
    (version 2, RBF inputs with empty witnesses, the given outputs) and the
    estimated minimum fee, computed from the fee rate and the virtual size of
    the dummy-witness clone (witness filling is absorbed into `Env.vsize`,
    which receives the commit input index). -/
def build_reveal_transaction (env : Env) (fee_rate : Nat) (inputs : List OutPoint)
    (commit_input_index : Nat) (outputs : List TxOut) : Transaction × Nat :=
  let reveal_tx : Transaction :=
    { version := 2,
      input := inputs.map (fun o => { previous_output := o }),
      output := outputs }
  (reveal_tx, FeeRate.fee fee_rate (env.vsize commit_input_index reveal_tx))

/-- Explicit reveal fee handling (lines 457-463): a caller-supplied fee below
    the estimate is rejected; otherwise it replaces the estimate. -/
def applyRevealFee (requested : Option Nat) (estimated : Nat) : Except Err Nat :=
  match requested with
  | none => pure estimated
  | some r =>
    if r < estimated then Except.error (Err.revealFeeTooSmall estimated) else pure r

/-- Replace the value of the last output (`reveal_outputs.last_mut()`,
    lines 504-506); the empty list is left unchanged, as `if let Some(last)`
    does. -/
def updateLastValue (outs : List TxOut) (v : Nat) : List TxOut :=
  match outs with
  | [] => []
  | [o] => [{ o with value := v }]
  | o :: o2 :: rest => o :: updateLastValue (o2 :: rest) v

/-- Sum of the values of the extra reveal-only inputs, each resolved through
    the transaction index (lines 492-499). -/
def revealInputValue (env : Env) (reveal_input : List OutPoint) : Nat :=
  (reveal_input.map (fun i => (env.lookup_output i).value)).sum

/-- Change-output computation on the reused-commitment path (line 505):
    `reveal_input_value + commitment_output.value - total_postage -
    reveal_fee`, where each `Amount` subtraction panics on underflow. -/
def commitmentChangeUpdate (reveal_input_value commitment_value total_postage
    reveal_fee : Nat) (outs : List TxOut) : Except Err (List TxOut) :=
  if reveal_input_value + commitment_value < total_postage then
    Except.error Err.amountUnderflowPanic
  else if reveal_input_value + commitment_value - total_postage < reveal_fee then
    Except.error Err.amountUnderflowPanic
  else
    pure (updateLastValue outs
      (reveal_input_value + commitment_value - total_postage - reveal_fee))

/-- The standardness ceiling `policy::MAX_STANDARD_TX_WEIGHT`. -/
def MAX_STANDARD_TX_WEIGHT : Nat := 400000

/-- Reveal-weight standardness check (lines 603-609): unless `no_limit` is
    set, a weight above `MAX_STANDARD_TX_WEIGHT` aborts with an error
    reporting the computed weight. -/
def checkWeight (no_limit : Bool) (reveal_weight : Nat) : Except Err Unit :=
  if !no_limit && MAX_STANDARD_TX_WEIGHT < reveal_weight then
    Except.error (Err.weightExceeded reveal_weight)
  else pure ()

/-- An inscription's reported on-chain identity and location. -/
structure InscriptionInfo where
  id_txid : Nat
  id_index : Nat
  location : SatPoint
  deriving DecidableEq, Repr

/-- Destination output index reported for inscription `index` (lines
    211-226): 0 in shared-output and same-sat modes and `index` in
    separate-outputs mode, shifted by 1 when a parent pass-through output is
    present. -/
def reportVout (mode : Mode) (parent_present : Bool) (index : Nat) : Nat :=
  match mode with
  | Mode.SharedOutput | Mode.SameSat => if parent_present then 1 else 0
  | Mode.SeparateOutputs => if parent_present then index + 1 else index

/-- Offset within the destination output reported for inscription `index`
    (lines 228-231): `index * postage` in shared-output mode, 0 otherwise. -/
def reportOffset (mode : Mode) (postage index : Nat) : Nat :=
  match mode with
  | Mode.SharedOutput => index * postage
  | Mode.SeparateOutputs | Mode.SameSat => 0

/-- The reporting map of `Batch::output` (lines 197-245): for each
    inscription index, the destination vout and the offset within that
    output.  `none` models the `reveal.unwrap()` panic, reachable only when
    the loop body runs without a reveal txid; in commit-only mode the loop
    pushes nothing. -/
def Batch.output (batch : Batch) (reveal : Option Nat) :
    Option (List InscriptionInfo) :=
  (List.range batch.inscriptions.length).foldr
    (fun index acc =>
      match acc with
      | none => none
      | some rest =>
        if batch.commit_only then some rest
        else
          match reveal with
          | none => none
          | some r =>
            some ({ id_txid := r, id_index := index,
                    location :=
                      { outpoint :=
                          { txid := r,
                            vout :=
                              reportVout batch.mode batch.parent_info.isSome index },
                        offset := reportOffset batch.mode batch.postage index } }
              :: rest))
    (some [])

/-- The pipeline `Batch::create_batch_inscription_transactions` (lines
    259-635), with the
    cryptographic derivations (key pair, reveal script, taproot spend info,
    control block, signature hash, witness assembly, recovery-key self-check)
    abstracted into `env`; those steps read none of the amounts and alter
    neither input/output lists nor fees.  Returns the unsigned commit
    transaction, the reveal transaction and the total fees. -/
def create_batch_inscription_transactions (batch : Batch) (env : Env)
    (wallet_inscriptions : List (SatPoint × Nat))
    (locked_utxos runic_utxos : List OutPoint)
    (utxos : List (OutPoint × Nat)) :
    Except Err (Transaction × Transaction × Nat) := do
  -- parent linkage assertion (lines 270-275)
  match batch.parent_info with
  | some p =>
    if batch.inscriptions.all (fun i => i.parent = some p.id) then pure ()
    else Except.error Err.parentMismatchPanic
  | none => pure ()
  -- --next-file requires --commitment (lines 277-279)
  if batch.next_inscription.isSome && batch.commitment.isNone then
    Except.error Err.nextWithoutCommitment
  else pure ()
  -- destination-count invariants (lines 281-297)
  checkDestinations batch.mode batch.destinations.length batch.inscriptions.length
  -- satpoint selection (lines 299-322)
  let satpoint ← selectSatpoint batch wallet_inscriptions locked_utxos runic_utxos utxos
  -- reinscription policy (lines 324-348)
  checkReinscription batch.reinscribe satpoint wallet_inscriptions
  -- key pair, reveal script, taproot spend info, control block, commit
  -- address and reveal change address (lines 350-399) are cryptographic
  -- derivations abstracted into `env.commit_address_script` and
  -- `env.reveal_change_script`
  let total_postage := totalPostage batch.mode batch.postage batch.inscriptions.length
  let reveal_inputs :=
    insertParentInput batch.parent_info (OutPoint.null :: batch.reveal_input)
  let reveal_outputs :=
    insertParentOutput batch.parent_info
      (destinationOutputs batch.mode batch.postage batch.destinations
        batch.inscriptions.length)
  let commit_input := if batch.parent_info.isSome then 1 else 0
  let reveal_outputs :=
    appendCommitmentChange batch.commitment.isSome env.reveal_change_script reveal_outputs
  -- fee estimation pass (lines 448-455)
  let estimate := build_reveal_transaction env batch.reveal_fee_rate reveal_inputs
    commit_input reveal_outputs
  -- explicit reveal fee floor (lines 457-463)
  let reveal_fee ← applyRevealFee batch.reveal_fee estimate.2
  -- commit transaction: placeholder when reusing a commitment, else the
  -- external TransactionBuilder collaborator (lines 465-490)
  let unsigned_commit_tx ←
    match batch.commitment with
    | some _ => pure { version := 0, input := [], output := [] : Transaction }
    | none => env.build_commit batch.commit_only (reveal_fee + total_postage)
  -- extra reveal-only inputs: resolve values and register them (lines 492-499)
  let reveal_input_value := revealInputValue env batch.reveal_input
  let utxos :=
    (batch.reveal_input.map (fun i => (i, (env.lookup_output i).value))).reverse ++ utxos
  -- resolve the real commit outpoint (lines 501-523)
  let resolved ←
    match batch.commitment with
    | some c =>
      match batch.commitment_output with
      | none => Except.error Err.unwrapPanic
      | some co => do
        let outs ← commitmentChangeUpdate reveal_input_value co.value total_postage
          reveal_fee reveal_outputs
        pure (reveal_inputs.set commit_input c, outs, 0)
    | none =>
      match (unsigned_commit_tx.output.enum.find?
          (fun p => p.2.script_pubkey = env.commit_address_script)) with
      | none => Except.error Err.noCommitOutputPanic
      | some p =>
        pure (reveal_inputs.set commit_input
          { txid := env.txid unsigned_commit_tx, vout := p.1 },
          reveal_outputs, p.1)
  let reveal_inputs := resolved.1
  let reveal_outputs := resolved.2.1
  -- `resolved.2.2` is the commit vout, used by the source only to pick the
  -- prevout for the abstracted signing step
  -- final reveal transaction (lines 525-532)
  let built := build_reveal_transaction env batch.reveal_fee_rate reveal_inputs
    commit_input reveal_outputs
  let reveal_tx := built.1
  -- dust check on the commit-spending output (lines 534-541)
  match reveal_tx.output[commit_input]? with
  | none => Except.error Err.unwrapPanic
  | some o =>
    if o.value < env.dust_value o.script_pubkey then Except.error Err.dust
    else pure ()
  -- prevouts, signature hash, Schnorr signature, witness assembly and
  -- recovery-key derivation (lines 543-601) are cryptographic and do not
  -- alter inputs, outputs or fees
  -- weight standardness check (lines 603-609)
  checkWeight batch.no_limit (env.weight reveal_tx)
  -- register the commit output so the reveal fee is computable (lines 611-621)
  let commit_prev ←
    match reveal_tx.input[commit_input]? with
    | none => Except.error Err.unwrapPanic
    | some i => pure i.previous_output
  let commit_value ←
    match batch.commitment with
    | some _ =>
      match batch.commitment_output with
      | none => Except.error Err.unwrapPanic
      | some co => pure co.value
    | none =>
      match unsigned_commit_tx.output[commit_prev.vout]? with
      | none => Except.error Err.unwrapPanic
      | some o => pure o.value
  let utxos := (commit_prev, commit_value) :: utxos
  -- total fee accounting (lines 623-632)
  match totalFees batch.commitment.isSome batch.commit_only unsigned_commit_tx
      reveal_tx utxos with
  | none => Except.error Err.unwrapPanic
  | some total_fees => pure (unsigned_commit_tx, reveal_tx, total_fees)

/-! ## Theorems -/

theorem inputSum_none_iff (utxos : List (OutPoint × Nat)) (ins : List TxIn) :
    inputSum utxos ins = none ↔
      ∃ i ∈ ins, lookupUtxo utxos i.previous_output = none := by
  induction ins with
  | nil => simp [inputSum]
  | cons i rest ih =>
    simp only [inputSum, List.mem_cons]
    cases h1 : lookupUtxo utxos i.previous_output with
    | none =>
      simp only [true_iff]
      exact ⟨i, Or.inl rfl, h1⟩
    | some v =>
      cases h2 : inputSum utxos rest with
      | none =>
        simp only [true_iff]
        obtain ⟨j, hj, hl⟩ := ih.mp h2
        exact ⟨j, Or.inr hj, hl⟩
      | some s =>
        constructor
        · intro hc; exact absurd hc (by simp)
        · rintro ⟨j, hj | hj, hl⟩
          · subst hj; rw [h1] at hl; exact absurd hl (by simp)
          · exact absurd (ih.mpr ⟨j, hj, hl⟩) (by simp [h2])

/-- C10: `Batch::calculate_fee` is partial: it returns the exact
    input-minus-output difference precisely when every input's previous
    outpoint is present in the UTXO map and the summed input values cover the
    summed output values; a missing outpoint or outputs exceeding inputs
    yields the panic result (`none`) rather than an error value. -/
theorem calculate_fee_partial_exact (tx : Transaction) (utxos : List (OutPoint × Nat)) :
    (∀ f, calculate_fee tx utxos = some f ↔
      ∃ s, inputSum utxos tx.input = some s ∧ outputSum tx ≤ s ∧ f = s - outputSum tx)
    ∧ (calculate_fee tx utxos = none ↔
      (∃ i ∈ tx.input, lookupUtxo utxos i.previous_output = none)
      ∨ ∃ s, inputSum utxos tx.input = some s ∧ s < outputSum tx) := by
  constructor
  · intro f
    unfold calculate_fee
    cases h : inputSum utxos tx.input with
    | none => simp [h]
    | some s =>
      by_cases hle : outputSum tx ≤ s
      · simp only [hle, if_true]
        constructor
        · intro hf; exact ⟨s, rfl, hle, by injection hf; omega⟩
        · rintro ⟨s', hs', hle', hf⟩
          injection hs' with hs'; subst hs'; subst hf; rfl
      · simp only [hle, if_false]
        constructor
        · intro hc; exact absurd hc (by simp)
        · rintro ⟨s', hs', hle', _⟩
          injection hs' with hs'; subst hs'; omega
  · unfold calculate_fee
    cases h : inputSum utxos tx.input with
    | none =>
      simp only [true_iff]
      exact Or.inl ((inputSum_none_iff utxos tx.input).mp h)
    | some s =>
      by_cases hle : outputSum tx ≤ s
      · simp only [hle, if_true]
        constructor
        · intro hc; exact absurd hc (by simp)
        · rintro (hmiss | ⟨s', hs', hlt⟩)
          · exact absurd ((inputSum_none_iff utxos tx.input).mpr hmiss) (by simp [h])
          · injection hs' with hs'; omega
      · simp only [hle, if_false, true_iff]
        exact Or.inr ⟨s, rfl, by omega⟩

theorem calculate_fee_partial_exact_witness :
    calculate_fee
      { version := 2, input := [{ previous_output := { txid := 1, vout := 0 } }],
        output := [{ value := 300, script_pubkey := 9 }] }
      [({ txid := 1, vout := 0 }, 500)] = some 200 :=
  ((calculate_fee_partial_exact
      { version := 2, input := [{ previous_output := { txid := 1, vout := 0 } }],
        output := [{ value := 300, script_pubkey := 9 }] }
      [({ txid := 1, vout := 0 }, 500)]).1 200).mpr
    ⟨500, by decide, by decide, by decide⟩

/-- C2: a reported transaction fee is exactly the sum of the referenced UTXO
    values minus the sum of the output values (no rounding loss), and the
    total reported fee is the commit transaction's fee (0 when a pre-existing
    commitment is reused) plus the reveal transaction's fee (0 in commit-only
    mode). -/
theorem fee_reporting_exact (commit_tx reveal_tx : Transaction)
    (utxos : List (OutPoint × Nat)) (reused conly : Bool) (cf rf : Nat)
    (hc : (if reused then some 0 else calculate_fee commit_tx utxos) = some cf)
    (hr : (if conly then some 0 else calculate_fee reveal_tx utxos) = some rf) :
    totalFees reused conly commit_tx reveal_tx utxos = some (cf + rf)
    ∧ ∀ tx f s, calculate_fee tx utxos = some f →
        inputSum utxos tx.input = some s → f + outputSum tx = s := by
  constructor
  · unfold totalFees
    rw [hc, hr]
  · intro tx f s hf hs
    unfold calculate_fee at hf
    rw [hs] at hf
    by_cases hle : outputSum tx ≤ s
    · simp only [hle, if_true] at hf
      injection hf with hf
      omega
    · simp [hle] at hf

theorem fee_reporting_exact_witness :
    totalFees false false
      { version := 2, input := [{ previous_output := { txid := 7, vout := 0 } }],
        output := [{ value := 400, script_pubkey := 9 }] }
      { version := 2, input := [{ previous_output := { txid := 8, vout := 0 } }],
        output := [{ value := 100, script_pubkey := 9 }] }
      [({ txid := 7, vout := 0 }, 500), ({ txid := 8, vout := 0 }, 150)] =
      some (100 + 50) :=
  (fee_reporting_exact
    { version := 2, input := [{ previous_output := { txid := 7, vout := 0 } }],
      output := [{ value := 400, script_pubkey := 9 }] }
    { version := 2, input := [{ previous_output := { txid := 8, vout := 0 } }],
      output := [{ value := 100, script_pubkey := 9 }] }
    [({ txid := 7, vout := 0 }, 500), ({ txid := 8, vout := 0 }, 150)]
    false false 100 50 (by decide) (by decide)).1

/-- C3: with a caller-supplied explicit reveal fee, construction fails exactly
    when the supplied fee is strictly below the estimated minimum, and on
    success the effective fee is the larger of the supplied fee and the
    estimate. -/
theorem reveal_fee_floor (r est : Nat) :
    ((∃ e, applyRevealFee (some r) est = Except.error e) ↔ r < est)
    ∧ (∀ f, applyRevealFee (some r) est = Except.ok f → f = max r est) := by
  unfold applyRevealFee
  by_cases h : r < est
  · refine ⟨⟨fun _ => h, fun _ => ⟨Err.revealFeeTooSmall est, by simp [h]⟩⟩, ?_⟩
    intro f hf
    simp [h] at hf
  · refine ⟨⟨?_, fun hlt => absurd hlt h⟩, ?_⟩
    · rintro ⟨e, he⟩
      simp [h, pure, Except.pure] at he
    · intro f hf
      simp only [h, if_false, pure, Except.pure] at hf
      injection hf with hf
      omega

theorem reveal_fee_floor_witness :
    applyRevealFee (some 120) 100 = Except.ok 120 → 120 = max 120 100 :=
  (reveal_fee_floor 120 100).2 120

/-- C6: the reveal-weight check fails with a protocol-limit error carrying the
    exact computed weight whenever the weight exceeds `MAX_STANDARD_TX_WEIGHT`
    and the no-limit flag is unset; with the flag set the check passes
    regardless of the weight, and below the ceiling it also passes. -/
theorem weight_limit_enforcement (no_limit : Bool) (w : Nat) :
    (no_limit = false → MAX_STANDARD_TX_WEIGHT < w →
      checkWeight no_limit w = Except.error (Err.weightExceeded w))
    ∧ (no_limit = true → checkWeight no_limit w = Except.ok ())
    ∧ (no_limit = false → w ≤ MAX_STANDARD_TX_WEIGHT →
      checkWeight no_limit w = Except.ok ()) := by
  refine ⟨?_, ?_, ?_⟩
  · intro hn hw
    subst hn
    simp [checkWeight, hw]
  · intro hn
    subst hn
    simp [checkWeight, pure, Except.pure]
  · intro hn hw
    subst hn
    simp [checkWeight, Nat.not_lt.mpr hw, pure, Except.pure]

theorem weight_limit_enforcement_witness :
    checkWeight false 400001 = Except.error (Err.weightExceeded 400001)
    ∧ checkWeight true 400001 = Except.ok () :=
  ⟨(weight_limit_enforcement false 400001).1 rfl (by decide),
   (weight_limit_enforcement true 400001).2.1 rfl⟩

/-- C1 counterexample: in same-sat mode with two inscriptions and postage
    10000 the single destination output is valued at `postage` (10000), not
    `postage × inscription_count` (20000) as the claim states. -/
theorem same_sat_aggregate_value_cex :
    destinationOutputs Mode.SameSat 10000 [5] 2 =
      [{ value := 10000, script_pubkey := 5 }]
    ∧ destinationOutputs Mode.SameSat 10000 [5] 2 ≠
      [{ value := 10000 * 2, script_pubkey := 5 }] := by
  constructor
  · rfl
  · decide

/-- C1 (amended): with a parent present, output 0 carries the parent's
    original value and destination script; in separate-outputs mode there is
    one output of exactly `postage` per destination (one per inscription,
    given the enforced destination count); in shared-output mode a single
    aggregate output holds `postage × inscription_count`; in same-sat mode
    the single output holds exactly `postage`. -/
theorem reveal_destination_outputs (mode : Mode) (postage : Nat)
    (dests : List Nat) (n : Nat) (p : ParentInfo) :
    (insertParentOutput (some p) (destinationOutputs mode postage dests n)).head? =
      some { value := p.tx_out.value, script_pubkey := p.destination }
    ∧ (mode = Mode.SeparateOutputs →
      destinationOutputs mode postage dests n =
        dests.map (fun d => { value := postage, script_pubkey := d }))
    ∧ (∀ d, dests = [d] → mode = Mode.SharedOutput →
      destinationOutputs mode postage dests n =
        [{ value := postage * n, script_pubkey := d }])
    ∧ (∀ d, dests = [d] → mode = Mode.SameSat →
      destinationOutputs mode postage dests n =
        [{ value := postage, script_pubkey := d }]) := by
  refine ⟨rfl, ?_, ?_, ?_⟩
  · intro hm; subst hm; rfl
  · intro d hd hm; subst hd; subst hm; rfl
  · intro d hd hm; subst hd; subst hm; rfl

theorem reveal_destination_outputs_witness :
    destinationOutputs Mode.SharedOutput 10000 [5] 3 =
      [{ value := 10000 * 3, script_pubkey := 5 }] :=
  (reveal_destination_outputs Mode.SharedOutput 10000 [5] 3
    { destination := 0, id := 0,
      location := { outpoint := { txid := 0, vout := 0 }, offset := 0 },
      tx_out := { value := 0, script_pubkey := 0 } }).2.2.1 5 rfl rfl

theorem updateLastValue_append (l : List TxOut) (o : TxOut) (v : Nat) :
    updateLastValue (l ++ [o]) v = l ++ [{ o with value := v }] := by
  induction l with
  | nil => rfl
  | cons x rest ih =>
    cases rest with
    | nil => rfl
    | cons y t =>
      have hstep : updateLastValue ((x :: y :: t) ++ [o]) v
          = x :: updateLastValue ((y :: t) ++ [o]) v := rfl
      rw [hstep, ih]
      rfl

/-- C4: on the reused-commitment path, the reveal transaction's output list
    ends in the appended change output, whose value is the externally supplied
    commitment output value plus the sum of the extra reveal-input values,
    minus total postage, minus the reveal fee. -/
theorem commitment_change_output (env : Env) (reveal_input : List OutPoint)
    (cv tp rf : Nat) (outs : List TxOut) (cs : Nat) (res : List TxOut)
    (h : commitmentChangeUpdate (revealInputValue env reveal_input) cv tp rf
        (appendCommitmentChange true cs outs) = Except.ok res) :
    res = outs ++
      [{ value := revealInputValue env reveal_input + cv - tp - rf,
         script_pubkey := cs }] := by
  unfold commitmentChangeUpdate appendCommitmentChange at h
  simp only [if_true] at h
  by_cases h1 : revealInputValue env reveal_input + cv < tp
  · simp [h1] at h
  · by_cases h2 : revealInputValue env reveal_input + cv - tp < rf
    · simp [h1, h2] at h
    · simp only [h1, h2, if_false, pure, Except.pure] at h
      injection h with h
      rw [← h, updateLastValue_append]

/-- Concrete environment used by witnesses: constant measurement functions,
    a single known extra-input prevout of 1000 sats, and a one-output commit
    transaction paying the commit address script 99. -/
def envW : Env :=
  { vsize := fun _ tx => tx.input.length + tx.output.length,
    weight := fun _ => 100,
    txid := fun _ => 42,
    commit_address_script := 99,
    reveal_change_script := 77,
    dust_value := fun _ => 330,
    lookup_output := fun _ => { value := 1000, script_pubkey := 5 },
    build_commit := fun _ target =>
      Except.ok { version := 2,
                  input := [{ previous_output := { txid := 7, vout := 0 } }],
                  output := [{ value := target, script_pubkey := 99 }] } }

theorem commitment_change_output_witness :
    ([{ value := 20000, script_pubkey := 5 },
      { value := 10996, script_pubkey := 77 }] : List TxOut) =
      [{ value := 20000, script_pubkey := 5 }] ++
        [{ value := revealInputValue envW [{ txid := 11, vout := 0 }] +
             30000 - 20000 - 4,
           script_pubkey := 77 }] :=
  commitment_change_output envW [{ txid := 11, vout := 0 }] 30000 20000 4
    [{ value := 20000, script_pubkey := 5 }] 77
    [{ value := 20000, script_pubkey := 5 },
     { value := 10996, script_pubkey := 77 }]
    (by rfl)

theorem reinscriptionLoop_false_present (sp : SatPoint) (ws : List (SatPoint × Nat))
    (acc : Bool)
    (hout : ∀ p ∈ ws, p.1.outpoint = sp.outpoint → p.1 = sp)
    (hmem : sp ∈ ws.map Prod.fst) :
    reinscriptionLoop false sp ws acc = Except.error (Err.alreadyInscribed sp) := by
  induction ws generalizing acc with
  | nil => simp at hmem
  | cons q rest ih =>
    obtain ⟨qs, qid⟩ := q
    by_cases hq : qs = sp
    · simp [reinscriptionLoop, hq]
    · have hqo : ¬ qs.outpoint = sp.outpoint := fun h =>
        hq (hout (qs, qid) (List.mem_cons_self _ _) h)
      have hmem' : sp ∈ rest.map Prod.fst := by
        rcases List.mem_cons.mp hmem with h | h
        · exact absurd h.symm hq
        · exact h
      simp only [reinscriptionLoop, hq, if_false, hqo]
      exact ih acc (fun p hp => hout p (List.mem_cons_of_mem _ hp)) hmem'

theorem reinscriptionLoop_true_saturated (sp : SatPoint) (ws : List (SatPoint × Nat))
    (hout : ∀ p ∈ ws, p.1.outpoint = sp.outpoint → p.1 = sp) :
    reinscriptionLoop true sp ws true = Except.ok true := by
  induction ws with
  | nil => rfl
  | cons q rest ih =>
    obtain ⟨qs, qid⟩ := q
    by_cases hq : qs = sp
    · simp only [reinscriptionLoop, hq, if_true]
      exact ih (fun p hp => hout p (List.mem_cons_of_mem _ hp))
    · have hqo : ¬ qs.outpoint = sp.outpoint := fun h =>
        hq (hout (qs, qid) (List.mem_cons_self _ _) h)
      simp only [reinscriptionLoop, hq, if_false, hqo]
      exact ih (fun p hp => hout p (List.mem_cons_of_mem _ hp))

theorem reinscriptionLoop_true_present (sp : SatPoint) (ws : List (SatPoint × Nat))
    (acc : Bool)
    (hout : ∀ p ∈ ws, p.1.outpoint = sp.outpoint → p.1 = sp)
    (hmem : sp ∈ ws.map Prod.fst) :
    reinscriptionLoop true sp ws acc = Except.ok true := by
  induction ws generalizing acc with
  | nil => simp at hmem
  | cons q rest ih =>
    obtain ⟨qs, qid⟩ := q
    by_cases hq : qs = sp
    · simp only [reinscriptionLoop, hq, if_true]
      exact reinscriptionLoop_true_saturated sp rest
        (fun p hp => hout p (List.mem_cons_of_mem _ hp))
    · have hqo : ¬ qs.outpoint = sp.outpoint := fun h =>
        hq (hout (qs, qid) (List.mem_cons_self _ _) h)
      have hmem' : sp ∈ rest.map Prod.fst := by
        rcases List.mem_cons.mp hmem with h | h
        · exact absurd h.symm hq
        · exact h
      simp only [reinscriptionLoop, hq, if_false, hqo]
      exact ih acc (fun p hp => hout p (List.mem_cons_of_mem _ hp)) hmem'

theorem reinscriptionLoop_true_absent (sp : SatPoint) (ws : List (SatPoint × Nat))
    (acc : Bool)
    (hout : ∀ p ∈ ws, p.1.outpoint = sp.outpoint → p.1 = sp)
    (hmem : sp ∉ ws.map Prod.fst) :
    reinscriptionLoop true sp ws acc = Except.ok acc := by
  induction ws generalizing acc with
  | nil => rfl
  | cons q rest ih =>
    obtain ⟨qs, qid⟩ := q
    have hq : ¬ qs = sp := by
      intro h
      exact hmem (by simp [h])
    have hqo : ¬ qs.outpoint = sp.outpoint := fun h =>
      hq (hout (qs, qid) (List.mem_cons_self _ _) h)
    have hmem' : sp ∉ rest.map Prod.fst := fun h =>
      hmem (by simp only [List.map_cons, List.mem_cons]; exact Or.inr h)
    simp only [reinscriptionLoop, hq, if_false, hqo]
    exact ih acc (fun p hp => hout p (List.mem_cons_of_mem _ hp)) hmem'

/-- C5: inscribing a satpoint already bearing a known inscription fails with a
    state error identifying the conflict (by the conflicting inscription's
    satpoint) when the reinscribe flag is unset, and passes the check when the
    flag is set; setting the flag when the satpoint is not already inscribed
    is an error.  The hypothesis reflects the documented invariant that no
    other inscription occupies the same outpoint at a different offset (in
    that situation a different error, naming the blocking inscription id, is
    produced for either flag value). -/
theorem reinscription_policy (sp : SatPoint) (ws : List (SatPoint × Nat))
    (hout : ∀ p ∈ ws, p.1.outpoint = sp.outpoint → p.1 = sp) :
    (sp ∈ ws.map Prod.fst →
      checkReinscription false sp ws = Except.error (Err.alreadyInscribed sp)
      ∧ checkReinscription true sp ws = Except.ok ())
    ∧ (sp ∉ ws.map Prod.fst →
      checkReinscription true sp ws = Except.error Err.notReinscription) := by
  constructor
  · intro hmem
    constructor
    · unfold checkReinscription
      rw [reinscriptionLoop_false_present sp ws false hout hmem]
      rfl
    · unfold checkReinscription
      rw [reinscriptionLoop_true_present sp ws false hout hmem]
      rfl
  · intro hmem
    unfold checkReinscription
    rw [reinscriptionLoop_true_absent sp ws false hout hmem]
    rfl

theorem reinscription_policy_witness :
    checkReinscription false { outpoint := { txid := 3, vout := 0 }, offset := 0 }
        [({ outpoint := { txid := 3, vout := 0 }, offset := 0 }, 7)] =
      Except.error (Err.alreadyInscribed
        { outpoint := { txid := 3, vout := 0 }, offset := 0 })
    ∧ checkReinscription true { outpoint := { txid := 3, vout := 0 }, offset := 0 }
        [({ outpoint := { txid := 3, vout := 0 }, offset := 0 }, 7)] =
      Except.ok () :=
  (reinscription_policy { outpoint := { txid := 3, vout := 0 }, offset := 0 }
    [({ outpoint := { txid := 3, vout := 0 }, offset := 0 }, 7)]
    (by decide)).1 (by decide)

theorem Batch.output_map (batch : Batch) (r : Nat)
    (hco : batch.commit_only = false) :
    Batch.output batch (some r) = some
      ((List.range batch.inscriptions.length).map (fun index =>
        { id_txid := r, id_index := index,
          location :=
            { outpoint :=
                { txid := r,
                  vout := reportVout batch.mode batch.parent_info.isSome index },
              offset := reportOffset batch.mode batch.postage index } })) := by
  unfold Batch.output
  generalize List.range batch.inscriptions.length = l
  induction l with
  | nil => rfl
  | cons i t ih =>
    simp only [List.foldr_cons]
    rw [ih]
    simp only [hco, List.map_cons]
    rfl

/-- C7: in a non-commit-only batch the reported location of inscription `i`
    uses output index 0 (1 with a parent pass-through output) in
    shared-output and same-sat modes, and `i` (plus 1 with a parent) in
    separate-outputs mode, with offset `i × postage` in shared-output mode
    and 0 otherwise. -/
theorem inscription_location_mapping (batch : Batch) (r i : Nat)
    (hco : batch.commit_only = false)
    (hi : i < batch.inscriptions.length) :
    ∃ l, Batch.output batch (some r) = some l ∧
      l.length = batch.inscriptions.length ∧
      l[i]? = some
        { id_txid := r, id_index := i,
          location :=
            { outpoint :=
                { txid := r,
                  vout := reportVout batch.mode batch.parent_info.isSome i },
              offset := reportOffset batch.mode batch.postage i } }
      ∧ reportVout batch.mode batch.parent_info.isSome i =
          (match batch.mode with
          | Mode.SharedOutput | Mode.SameSat =>
            if batch.parent_info.isSome then 1 else 0
          | Mode.SeparateOutputs =>
            if batch.parent_info.isSome then i + 1 else i)
      ∧ reportOffset batch.mode batch.postage i =
          (match batch.mode with
          | Mode.SharedOutput => i * batch.postage
          | Mode.SeparateOutputs | Mode.SameSat => 0) := by
  refine ⟨_, Batch.output_map batch r hco, ?_, ?_, rfl, rfl⟩
  · simp
  · rw [List.getElem?_map, List.getElem?_range hi]
    rfl

theorem inscription_location_mapping_witness :
    ∃ l, Batch.output
        { commit_fee_rate := 1, commit_only := false, commitment := none,
          commitment_output := none, destinations := [5],
          inscriptions := [{ parent := none }, { parent := none }],
          mode := Mode.SharedOutput, next_inscription := none,
          no_limit := false, parent_info := none, postage := 10000,
          reinscribe := false, reveal_fee := none, reveal_fee_rate := 1,
          reveal_input := [], satpoint := none }
        (some 42) = some l ∧
      l.length = 2 ∧
      l[1]? = some
        { id_txid := 42, id_index := 1,
          location :=
            { outpoint :=
                { txid := 42,
                  vout := reportVout Mode.SharedOutput false 1 },
              offset := reportOffset Mode.SharedOutput 10000 1 } }
      ∧ reportVout Mode.SharedOutput false 1 = 0
      ∧ reportOffset Mode.SharedOutput 10000 1 = 10000 := by
  obtain ⟨l, h1, h2, h3, _, _⟩ := inscription_location_mapping
    { commit_fee_rate := 1, commit_only := false, commitment := none,
      commitment_output := none, destinations := [5],
      inscriptions := [{ parent := none }, { parent := none }],
      mode := Mode.SharedOutput, next_inscription := none,
      no_limit := false, parent_info := none, postage := 10000,
      reinscribe := false, reveal_fee := none, reveal_fee_rate := 1,
      reveal_input := [], satpoint := none }
    42 1 rfl (by decide)
  exact ⟨l, h1, h2, h3, rfl, rfl⟩

/-- C8: a destination count above 1 in shared-output or same-sat mode, or a
    destination count differing from the inscription count in
    separate-outputs mode, aborts `create_batch_inscription_transactions` at
    the destination-count invariant, before any script or transaction
    construction is reached. -/
theorem destination_count_precheck (batch : Batch) (env : Env)
    (ws : List (SatPoint × Nat)) (locked runic : List OutPoint)
    (utxos : List (OutPoint × Nat))
    (hp : batch.parent_info = none) (hn : batch.next_inscription = none)
    (hmm : ((batch.mode = Mode.SharedOutput ∨ batch.mode = Mode.SameSat) ∧
        1 < batch.destinations.length)
      ∨ (batch.mode = Mode.SeparateOutputs ∧
        batch.destinations.length ≠ batch.inscriptions.length)) :
    ∃ expected got,
      create_batch_inscription_transactions batch env ws locked runic utxos =
        Except.error (Err.badDestinationCount expected got) := by
  have hcd : ∃ e g, checkDestinations batch.mode batch.destinations.length
      batch.inscriptions.length = Except.error (Err.badDestinationCount e g) := by
    rcases hmm with ⟨hmode, hlen⟩ | ⟨hmode, hlen⟩
    · have hne : ¬ batch.destinations.length = 1 := by omega
      rcases hmode with h | h <;>
        exact ⟨1, batch.destinations.length, by simp [checkDestinations, h, hne]⟩
    · exact ⟨batch.inscriptions.length, batch.destinations.length,
        by simp [checkDestinations, hmode, hlen]⟩
  obtain ⟨e, g, hcd⟩ := hcd
  refine ⟨e, g, ?_⟩
  unfold create_batch_inscription_transactions
  rw [hp, hn, hcd]
  rfl

theorem destination_count_precheck_witness :
    ∃ expected got,
      create_batch_inscription_transactions
        { commit_fee_rate := 1, commit_only := false, commitment := none,
          commitment_output := none, destinations := [5, 6],
          inscriptions := [{ parent := none }],
          mode := Mode.SharedOutput, next_inscription := none,
          no_limit := false, parent_info := none, postage := 10000,
          reinscribe := false, reveal_fee := none, reveal_fee_rate := 1,
          reveal_input := [], satpoint := none }
        envW [] [] [] [] =
        Except.error (Err.badDestinationCount expected got) :=
  destination_count_precheck
    { commit_fee_rate := 1, commit_only := false, commitment := none,
      commitment_output := none, destinations := [5, 6],
      inscriptions := [{ parent := none }],
      mode := Mode.SharedOutput, next_inscription := none,
      no_limit := false, parent_info := none, postage := 10000,
      reinscribe := false, reveal_fee := none, reveal_fee_rate := 1,
      reveal_input := [], satpoint := none }
    envW [] [] [] [] rfl rfl (Or.inl ⟨Or.inl rfl, by decide⟩)

/-- C9: for otherwise-identical batches, a strictly greater reveal fee rate
    yields a strictly greater estimated reveal fee, and a strictly greater
    commit fee rate yields a strictly greater commit fee; the commit fee is
    the spec-modelled `FeeRate.fee` of the coin-selection collaborator's
    fee-consistent commit transaction at its virtual size. -/
theorem fee_rate_monotonic (env : Env) (inputs : List OutPoint) (ci : Nat)
    (outputs : List TxOut) (r1 r2 c1 c2 commit_vsize : Nat)
    (hr : r1 < r2) (hc : c1 < c2)
    (hv : 0 < env.vsize ci (build_reveal_transaction env r1 inputs ci outputs).1)
    (hcv : 0 < commit_vsize) :
    (build_reveal_transaction env r1 inputs ci outputs).2 <
      (build_reveal_transaction env r2 inputs ci outputs).2
    ∧ FeeRate.fee c1 commit_vsize < FeeRate.fee c2 commit_vsize := by
  unfold build_reveal_transaction FeeRate.fee at hv ⊢
  exact ⟨Nat.mul_lt_mul_of_lt_of_le hr (Nat.le_refl _) hv,
         Nat.mul_lt_mul_of_lt_of_le hc (Nat.le_refl _) hcv⟩

theorem fee_rate_monotonic_witness :
    (build_reveal_transaction envW 1 [OutPoint.null] 0
        [{ value := 10000, script_pubkey := 5 }]).2 <
      (build_reveal_transaction envW 2 [OutPoint.null] 0
        [{ value := 10000, script_pubkey := 5 }]).2
    ∧ FeeRate.fee 1 100 < FeeRate.fee 2 100 :=
  fee_rate_monotonic envW [OutPoint.null] 0
    [{ value := 10000, script_pubkey := 5 }] 1 2 1 2 100
    (by decide) (by decide) (by decide) (by decide)
